import Mathlib

/-!
Shallow embedding of the notion-data-service cache and ignore-list core
(notion/service.go) together with proofs of the specification claims.

Modelling conventions:
- Go maps become association lists (SMap) with lookup, insert, keys and
  filter; the iteration order of a Go map is unspecified, so where the
  source iterates a map whose order is observable (processPageProperties
  over the page property map) the iteration order is an explicit list
  parameter of the embedding.
- time.Time becomes a natural number clock value passed explicitly; the
  Go test t.Add(d).After(now) becomes now < t + d.
- The remote Notion API is an oracle Remote : databaseID -> cursor ->
  Option QueryPage, where none models a transport error or a nil page
  response (both error exits of the Go code).
- The pagination loop of QueryDatabase receives explicit fuel; the outer
  Option of its result is none exactly when the fuel runs out, that is
  when the Go loop has not finished yet, so every theorem about a
  completed call is stated on a some result.
- Values the Go code renders to strings (dates, numbers, unix
  timestamps) are carried as the rendered strings; their exact
  formatting is irrelevant to every claim.
-/

/-- Association-list model of a Go map with string keys. -/
abbrev SMap (α : Type) := List (String × α)

namespace SMap

/-- Go map read m[k]. -/
def lookup {α : Type} : SMap α → String → Option α
  | [], _ => none
  | (k2, v) :: rest, k => if k2 = k then some v else lookup rest k

/-- Go map write m[k] = v: overwrite the existing entry or append a new one. -/
def insert {α : Type} : SMap α → String → α → SMap α
  | [], k, v => [(k, v)]
  | (k2, v2) :: rest, k, v =>
    if k2 = k then (k, v) :: rest else (k2, v2) :: insert rest k v

/-- The keys of the map. -/
def keys {α : Type} (m : SMap α) : List String := m.map Prod.fst

end SMap

/-- notion.DataProperty. -/
structure DataProperty where
  Name : String
  Values : List String
deriving DecidableEq

/-- notion.DataItem; LastUpdated is the timestamp as a natural number. -/
structure DataItem where
  ID : String
  Properties : List DataProperty
  LastUpdated : Nat
deriving DecidableEq

/-- The dynamic type of one entry of a page property map, one variant per
type assertion of processPageProperties; unrecognized stands for every
property type the Go code does not test for. -/
inductive NotionProperty where
  | title (parts : List String)
  | richText (parts : List String)
  | text (parts : List String)
  | date (startVal endVal : Option String)
  | select (name : String)
  | multiSelect (names : List String)
  | url (u : String)
  | checkbox (b : Bool)
  | email (addr : String)
  | phoneNumber (num : String)
  | formula (rendered : String)
  | number (rendered : String)
  | createdTime (rendered : String)
  | lastEditedTime (rendered : String)
  | createdBy (name : String)
  | lastEditedBy (name : String)
  | people (names : List String)
  | unrecognized
deriving DecidableEq

/-- The value list built by the chain of type assertions in
processPageProperties: exactly one assertion can fire for a given dynamic
type, and an unrecognized type leaves the value list empty. -/
def propertyValues : NotionProperty → List String
  | .title parts => [String.join parts]
  | .richText parts => parts
  | .text parts => parts
  | .date startVal endVal => startVal.toList ++ endVal.toList
  | .select name => [name]
  | .multiSelect names => names
  | .url u => [u]
  | .checkbox b => [if b then "true" else "false"]
  | .email addr => [addr]
  | .phoneNumber num => [num]
  | .formula rendered => [rendered]
  | .number rendered => [rendered]
  | .createdTime rendered => [rendered]
  | .lastEditedTime rendered => [rendered]
  | .createdBy name => [name]
  | .lastEditedBy name => [name]
  | .people names => names
  | .unrecognized => []

/-- One remote page record. Properties is a Go map in the source; the list
records one possible iteration order of that map. -/
structure NotionPage where
  ID : String
  LastEditedTime : Nat
  Properties : List (String × NotionProperty)
deriving DecidableEq

/-- processPageProperties: strip hyphens from the record id, keep the last
edited time, and flatten each property in map iteration order. -/
def processPageProperties (pages : List NotionPage) : List DataItem :=
  pages.map (fun p =>
    { ID := String.mk (p.ID.data.filter (fun c => c != '-')),
      LastUpdated := p.LastEditedTime,
      Properties := p.Properties.map
        (fun kp => { Name := kp.1, Values := propertyValues kp.2 }) })

/-- One response of the remote query endpoint: the page results plus the
continuation cursor, empty when this is the last page. -/
structure QueryPage where
  results : List NotionPage
  nextCursor : String
deriving DecidableEq

/-- The remote Notion API: database id and cursor to an optional page;
none models an error return or a nil page. -/
abbrev Remote := String → String → Option QueryPage

/-- The mutable fields of notion.Service that the claims are about. -/
structure ServiceState where
  databaseMap : SMap (List DataItem)
  ignoredDatabases : SMap Nat
  knownDatabases : List String
deriving DecidableEq

/-- IgnoreDatabaseDuration = 5 * time.Minute, in seconds. -/
def IgnoreDatabaseDuration : Nat := 5 * 60

/-- NewDataService followed by the map initialisation done in Start. -/
def NewDataService (knownDatabases : List String) : ServiceState :=
  { databaseMap := [], ignoredDatabases := [], knownDatabases := knownDatabases }

/-- normalizedNotionID: strings.ReplaceAll with " " then with "-", both
replaced by the empty string, that is two successive character filters. -/
def normalizedNotionID (notionID : String) : String :=
  String.mk ((notionID.data.filter (fun c => c != ' ')).filter (fun c => c != '-'))

/-- IsDatabaseIgnored at clock value now: an entry exists for the
normalized id and has not expired yet. -/
def IsDatabaseIgnored (st : ServiceState) (now : Nat) (notionID : String) : Bool :=
  match st.ignoredDatabases.lookup (normalizedNotionID notionID) with
  | none => false
  | some t => decide (now < t + IgnoreDatabaseDuration)

/-- ignoreNotionDatabase: record the failure time under the normalized id
unless the normalized id matches a configured known database. -/
def ignoreNotionDatabase (st : ServiceState) (now : Nat) (notionID : String) : ServiceState :=
  let normalizedID := normalizedNotionID notionID
  if st.knownDatabases.any (fun knownID => normalizedNotionID knownID == normalizedID) then st
  else { st with ignoredDatabases := st.ignoredDatabases.insert normalizedID now }

/-- The body of one CleanupLoop tick: drop every expired ignore entry. -/
def sweep (now : Nat) (st : ServiceState) : ServiceState :=
  { st with ignoredDatabases :=
      st.ignoredDatabases.filter (fun p => decide (now < p.2 + IgnoreDatabaseDuration)) }

/-- The pagination loop of QueryDatabase: request the current cursor,
append the processed results, stop on an empty next cursor. -/
def queryLoop (remote : Remote) (dbID : String) :
    Nat → String → List DataItem → Option (Option (List DataItem))
  | 0, _, _ => none
  | fuel + 1, cursor, acc =>
    match remote dbID cursor with
    | none => some none
    | some page =>
      if page.nextCursor = "" then
        some (some (acc ++ processPageProperties page.results))
      else
        queryLoop remote dbID fuel page.nextCursor (acc ++ processPageProperties page.results)

/-- QueryDatabase: run the pagination loop from the empty cursor; on
success upsert the result into the cache when asked to and when the
result list is nonempty; on error leave the state untouched. -/
def QueryDatabase (remote : Remote) (fuel : Nat) (st : ServiceState)
    (notionID : String) (updateMapIfSuccess : Bool) :
    Option (Option (List DataItem) × ServiceState) :=
  match queryLoop remote notionID fuel "" [] with
  | none => none
  | some none => some (none, st)
  | some (some result) =>
    if updateMapIfSuccess = true ∧ 0 < result.length then
      some (some result, { st with databaseMap := st.databaseMap.insert notionID result })
    else
      some (some result, st)

/-- The possible outcomes of QueryDatabaseCached: a value with nil error,
the distinct database-ignored error, or a wrapped fetch error. -/
inductive QueryResult where
  | ok (items : List DataItem)
  | errIgnored
  | errFetch
deriving DecidableEq

/-- Step 5 of the query orchestration: the on-demand fetch of
QueryDatabaseCached, marking the database ignored on failure. -/
def queryCachedFetch (remote : Remote) (fuel now : Nat) (st : ServiceState)
    (notionID : String) : Option (QueryResult × ServiceState) :=
  match QueryDatabase remote fuel st notionID true with
  | none => none
  | some (none, st1) => some (QueryResult.errFetch, ignoreNotionDatabase st1 now notionID)
  | some (some res, st1) => some (QueryResult.ok res, st1)

/-- QueryDatabaseCached: cache fast path, then under the fetch lock the
ignore check, the cache re-check and finally the on-demand fetch. -/
def QueryDatabaseCached (remote : Remote) (fuel now : Nat) (st : ServiceState)
    (notionID : String) : Option (QueryResult × ServiceState) :=
  match st.databaseMap.lookup notionID with
  | some val => some (QueryResult.ok val, st)
  | none =>
    if IsDatabaseIgnored st now notionID then
      some (QueryResult.errIgnored, st)
    else
      match st.databaseMap.lookup notionID with
      | some val => some (QueryResult.ok val, st)
      | none => queryCachedFetch remote fuel now st notionID

/-- ListDatabases: the keys currently in the cache map. -/
def ListDatabases (st : ServiceState) : List String := st.databaseMap.keys

/-- The loop body of update: fetch every enumerated database and keep the
successful results in a fresh map. -/
def updateLoop (remote : Remote) (fuel : Nat) (st : ServiceState) :
    SMap (List DataItem) → List String → Option (SMap (List DataItem))
  | acc, [] => some acc
  | acc, databaseID :: rest =>
    match QueryDatabase remote fuel st databaseID false with
    | none => none
    | some (none, _) => updateLoop remote fuel st acc rest
    | some (some items, _) => updateLoop remote fuel st (acc.insert databaseID items) rest

/-- One refresh cycle: enumerate the cache keys, return early when there
are none, otherwise rebuild a fresh map from the per-key fetches and
install it with a single whole-map assignment. -/
def update (remote : Remote) (fuel : Nat) (st : ServiceState) : Option ServiceState :=
  let dbs := ListDatabases st
  if dbs.isEmpty then some st
  else
    match updateLoop remote fuel st [] dbs with
    | none => none
    | some res => some { st with databaseMap := res }

/-- The concatenation, in page order, of the processed results of a page
sequence; mirrors the accumulation of the pagination loop. -/
def pagesItems : List QueryPage → List DataItem
  | [] => []
  | p :: rest => processPageProperties p.results ++ pagesItems rest

/-- The remote serves, starting from the given cursor, exactly this finite
page sequence: each page is returned for the cursor of its predecessor,
every page but the last carries a nonempty continuation cursor, and the
last page carries the empty cursor. -/
def servesFrom (remote : Remote) (dbID : String) : String → List QueryPage → Bool
  | _, [] => false
  | cursor, [page] => remote dbID cursor == some page && page.nextCursor == ""
  | cursor, page :: q :: rest =>
    remote dbID cursor == some page && page.nextCursor != "" &&
      servesFrom remote dbID page.nextCursor (q :: rest)

/-- The remote serves this page prefix, every page of it with a nonempty
continuation cursor, and then fails the next page request. -/
def servesFailFrom (remote : Remote) (dbID : String) : String → List QueryPage → Bool
  | cursor, [] => remote dbID cursor == none
  | cursor, page :: rest =>
    remote dbID cursor == some page && page.nextCursor != "" &&
      servesFailFrom remote dbID page.nextCursor rest

/-- One observable transition of the service state: a cached query, a raw
query, a refresh tick or a cleanup tick, at arbitrary clock values and
against an arbitrary remote. -/
inductive Step : ServiceState → ServiceState → Prop where
  | queryCached (remote : Remote) (fuel now : Nat) (notionID : String)
      (st st1 : ServiceState) (r : QueryResult)
      (h : QueryDatabaseCached remote fuel now st notionID = some (r, st1)) : Step st st1
  | queryDatabase (remote : Remote) (fuel : Nat) (notionID : String) (b : Bool)
      (st st1 : ServiceState) (r : Option (List DataItem))
      (h : QueryDatabase remote fuel st notionID b = some (r, st1)) : Step st st1
  | updateTick (remote : Remote) (fuel : Nat) (st st1 : ServiceState)
      (h : update remote fuel st = some st1) : Step st st1
  | sweepTick (now : Nat) (st : ServiceState) : Step st (sweep now st)

/-- The states reachable from a freshly started service with the given
known-database configuration. -/
def Reachable (known : List String) (st : ServiceState) : Prop :=
  Relation.ReflTransGen Step (NewDataService known) st

/-- No ignore entry key equals the normalized form of a known database. -/
def noIgnoredKnown (st : ServiceState) : Bool :=
  st.ignoredDatabases.all (fun p =>
    st.knownDatabases.all (fun knownID => normalizedNotionID knownID != p.1))

/-- Every ignore entry key is a fixed point of normalization and contains
neither a space nor a hyphen character. -/
def ignKeysNormalized (st : ServiceState) : Bool :=
  st.ignoredDatabases.all (fun p =>
    (normalizedNotionID p.1 == p.1) && p.1.data.all (fun c => c != ' ' && c != '-'))

/-! Helper lemmas about the map model. -/

theorem SMap.lookup_insert_self {α : Type} (m : SMap α) (k : String) (v : α) :
    (m.insert k v).lookup k = some v := by
  induction m with
  | nil => simp [SMap.insert, SMap.lookup]
  | cons p rest ih =>
    by_cases h : p.1 = k
    · simp [SMap.insert, SMap.lookup, h]
    · simp [SMap.insert, SMap.lookup, h, ih]

theorem SMap.lookup_insert_ne {α : Type} (m : SMap α) (k k2 : String) (v : α)
    (h : k ≠ k2) : (m.insert k v).lookup k2 = m.lookup k2 := by
  induction m with
  | nil => simp [SMap.insert, SMap.lookup, h]
  | cons p rest ih =>
    by_cases h2 : p.1 = k
    · simp [SMap.insert, SMap.lookup, h2, h]
    · simp [SMap.insert, SMap.lookup, h2, ih]

theorem SMap.all_insert {α : Type} (m : SMap α) (k : String) (v : α)
    (P : String × α → Bool) (hm : m.all P = true) (hp : P (k, v) = true) :
    (m.insert k v).all P = true := by
  induction m with
  | nil => simp [SMap.insert, hp]
  | cons p rest ih =>
    simp only [List.all_cons, Bool.and_eq_true] at hm
    by_cases h : p.1 = k
    · simp [SMap.insert, h, hp, hm.2]
    · simp [SMap.insert, h, hm.1, ih hm.2]

theorem SMap.lookup_eq_none_iff {α : Type} (m : SMap α) (k : String) :
    m.lookup k = none ↔ k ∉ m.keys := by
  induction m with
  | nil => simp [SMap.lookup, SMap.keys]
  | cons p rest ih =>
    by_cases h : p.1 = k
    · simp [SMap.lookup, SMap.keys, h]
    · simp [SMap.lookup, SMap.keys, h, ih, Ne.symm h]

/-! Helper lemmas about normalization. -/

theorem normalizedNotionID_data (s : String) :
    (normalizedNotionID s).data =
      (s.data.filter (fun c => c != ' ')).filter (fun c => c != '-') := rfl

theorem normalizedNotionID_no_space_hyphen (s : String) (c : Char)
    (hc : c ∈ (normalizedNotionID s).data) : c ≠ ' ' ∧ c ≠ '-' := by
  rw [normalizedNotionID_data] at hc
  have h2 := List.of_mem_filter hc
  have h1 := List.of_mem_filter (List.mem_of_mem_filter hc)
  simp only [bne_iff_ne, ne_eq] at h1 h2
  exact ⟨h1, h2⟩

theorem normalizedNotionID_fixed (s : String)
    (h : ∀ c ∈ s.data, c ≠ ' ' ∧ c ≠ '-') : normalizedNotionID s = s := by
  have h1 : s.data.filter (fun c => c != ' ') = s.data :=
    List.filter_eq_self.mpr (fun c hc => by simpa using (h c hc).1)
  have h2 : s.data.filter (fun c => c != '-') = s.data :=
    List.filter_eq_self.mpr (fun c hc => by simpa using (h c hc).2)
  unfold normalizedNotionID
  rw [h1, h2]

theorem normalizedNotionID_idem (s : String) :
    normalizedNotionID (normalizedNotionID s) = normalizedNotionID s :=
  normalizedNotionID_fixed _ (normalizedNotionID_no_space_hyphen s)

/-- Ignore membership is a function of the normalized id. -/
theorem isIgnored_congr (st : ServiceState) (now : Nat) {a b : String}
    (h : normalizedNotionID a = normalizedNotionID b) :
    IsDatabaseIgnored st now a = IsDatabaseIgnored st now b := by
  unfold IsDatabaseIgnored
  rw [h]

/-- C1: whenever id is a key of the cache store, QueryDatabaseCached
returns exactly the cached record list with no error and with the state
unchanged, for every remote oracle, fuel and clock value; hence no remote
fetch is performed and the ignore list is neither read nor modified,
whether or not id is currently ignored. -/
theorem C1_cache_hit (remote : Remote) (fuel now : Nat) (st : ServiceState)
    (notionID : String) (val : List DataItem)
    (h : st.databaseMap.lookup notionID = some val) :
    QueryDatabaseCached remote fuel now st notionID = some (QueryResult.ok val, st) := by
  unfold QueryDatabaseCached
  rw [h]

theorem C1_cache_hit_witness :
    SMap.lookup [("db", [(⟨"item", [], 3⟩ : DataItem)])] "db" = some [(⟨"item", [], 3⟩ : DataItem)] ∧
    QueryDatabaseCached (fun _ _ => none) 0 0
        ⟨[("db", [⟨"item", [], 3⟩])], [("db", 0)], []⟩ "db" =
      some (QueryResult.ok [⟨"item", [], 3⟩],
        ⟨[("db", [⟨"item", [], 3⟩])], [("db", 0)], []⟩) :=
  ⟨rfl, C1_cache_hit (fun _ _ => none) 0 0 _ "db" _ rfl⟩

/-- C6: ignore membership tests agree on every pair of identifiers with
the same normalized form, in every state and at every clock value; in
particular the identifiers abc-123, abc123 and abc 123 always agree. -/
theorem C6_normalization_equivalence :
    (∀ (st : ServiceState) (now : Nat) (a b : String),
      normalizedNotionID a = normalizedNotionID b →
      IsDatabaseIgnored st now a = IsDatabaseIgnored st now b) ∧
    (∀ (st : ServiceState) (now : Nat),
      IsDatabaseIgnored st now "abc-123" = IsDatabaseIgnored st now "abc123" ∧
      IsDatabaseIgnored st now "abc 123" = IsDatabaseIgnored st now "abc123") := by
  refine ⟨fun st now a b h => isIgnored_congr st now h, fun st now => ?_⟩
  exact ⟨isIgnored_congr st now (by decide), isIgnored_congr st now (by decide)⟩

theorem C6_normalization_equivalence_witness :
    normalizedNotionID "a-b c" = normalizedNotionID "abc" ∧
    IsDatabaseIgnored ⟨[], [("abc", 0)], []⟩ 10 "a-b c" =
      IsDatabaseIgnored ⟨[], [("abc", 0)], []⟩ 10 "abc" :=
  ⟨by decide, C6_normalization_equivalence.1 ⟨[], [("abc", 0)], []⟩ 10 "a-b c" "abc" (by decide)⟩

/-- C8: one sweep at clock value now keeps exactly the ignore entries
whose failure time plus the suppression window is still after now, each
with its failure time unchanged, removes exactly the expired ones, and
leaves the cache map and the known database list untouched. -/
theorem C8_sweep_exact (now : Nat) (st : ServiceState) :
    (∀ (k : String) (t : Nat), (k, t) ∈ (sweep now st).ignoredDatabases ↔
      ((k, t) ∈ st.ignoredDatabases ∧ now < t + IgnoreDatabaseDuration)) ∧
    (sweep now st).databaseMap = st.databaseMap ∧
    (sweep now st).knownDatabases = st.knownDatabases := by
  refine ⟨fun k t => ?_, rfl, rfl⟩
  simp [sweep, List.mem_filter]

/-- If the remote serves the finite page sequence from the given cursor,
the pagination loop collects the processed pages in order behind the
accumulator, provided the fuel covers the sequence. -/
theorem queryLoop_serves (remote : Remote) (dbID : String) (pages : List QueryPage) :
    ∀ (cursor : String) (acc : List DataItem) (fuel : Nat),
      servesFrom remote dbID cursor pages = true → pages.length ≤ fuel →
      queryLoop remote dbID fuel cursor acc = some (some (acc ++ pagesItems pages)) := by
  induction pages with
  | nil => intro cursor acc fuel h _; simp [servesFrom] at h
  | cons page rest ih =>
    intro cursor acc fuel h hf
    cases fuel with
    | zero => simp at hf
    | succ fuel =>
      cases rest with
      | nil =>
        simp only [servesFrom, Bool.and_eq_true, beq_iff_eq] at h
        simp [queryLoop, h.1, h.2, pagesItems]
      | cons q rest2 =>
        simp only [servesFrom, Bool.and_eq_true, beq_iff_eq, bne_iff_ne, ne_eq] at h
        obtain ⟨⟨h1, h2⟩, h3⟩ := h
        have hrec := ih page.nextCursor (acc ++ processPageProperties page.results) fuel h3
          (by simpa using hf)
        simp [queryLoop, h1, h2, pagesItems, hrec, List.append_assoc]

/-- If the remote serves a page prefix and then fails the next request,
the pagination loop reports an error, provided the fuel reaches the
failing request. -/
theorem queryLoop_fails (remote : Remote) (dbID : String) (pages : List QueryPage) :
    ∀ (cursor : String) (acc : List DataItem) (fuel : Nat),
      servesFailFrom remote dbID cursor pages = true → pages.length < fuel →
      queryLoop remote dbID fuel cursor acc = some none := by
  induction pages with
  | nil =>
    intro cursor acc fuel h hf
    cases fuel with
    | zero => simp at hf
    | succ fuel =>
      simp only [servesFailFrom, beq_iff_eq] at h
      simp [queryLoop, h]
  | cons page rest ih =>
    intro cursor acc fuel h hf
    cases fuel with
    | zero => simp at hf
    | succ fuel =>
      simp only [servesFailFrom, Bool.and_eq_true, beq_iff_eq, bne_iff_ne, ne_eq] at h
      obtain ⟨⟨h1, h2⟩, h3⟩ := h
      have hrec := ih page.nextCursor (acc ++ processPageProperties page.results) fuel h3
        (by simpa using hf)
      simp [queryLoop, h1, h2, hrec]

/-- C7: when any single page request of the paginated fetch fails after a
prefix of successful pages, QueryDatabase returns the error outcome with
no records, and the service state, in particular the cache store, is left
exactly as it was: no partial concatenation is cached or returned. -/
theorem C7_partial_failure (remote : Remote) (notionID : String)
    (pages : List QueryPage) (fuel : Nat) (st : ServiceState) (b : Bool)
    (h : servesFailFrom remote notionID "" pages = true)
    (hfuel : pages.length < fuel) :
    QueryDatabase remote fuel st notionID b = some (none, st) := by
  unfold QueryDatabase
  rw [queryLoop_fails remote notionID pages "" [] fuel h hfuel]

theorem C7_partial_failure_witness :
    servesFailFrom (fun _ c => if c = "" then some ⟨[⟨"a-1", 1, []⟩], "c1"⟩ else none)
      "db" "" [⟨[⟨"a-1", 1, []⟩], "c1"⟩] = true ∧
    (1 : Nat) < 2 ∧
    QueryDatabase (fun _ c => if c = "" then some ⟨[⟨"a-1", 1, []⟩], "c1"⟩ else none)
      2 (NewDataService []) "db" true = some (none, NewDataService []) :=
  ⟨by decide, by decide,
    C7_partial_failure _ "db" [⟨[⟨"a-1", 1, []⟩], "c1"⟩] 2 (NewDataService []) true
      (by decide) (by decide)⟩

/-- C3 counterexample: a successful paginated fetch whose concatenation is
empty is returned but never upserted, because the source guards the cache
write with a nonemptiness test; here the claimed post state, the cache
with the returned empty list stored under the key, differs from the
actual post state, which is unchanged and still has no entry for the
key. -/
theorem C3_counterexample :
    servesFrom (fun _ _ => some ⟨[], ""⟩) "db" "" [⟨[], ""⟩] = true ∧
    QueryDatabase (fun _ _ => some ⟨[], ""⟩) 1 (NewDataService []) "db" true =
      some (some [], NewDataService []) ∧
    NewDataService [] ≠
      (⟨SMap.insert (NewDataService []).databaseMap "db" [], [], []⟩ : ServiceState) :=
  ⟨by decide, by decide, by decide⟩

/-- C3 amended: a successful paginated fetch with QueryDatabase(id, true),
and hence the fetch step of the cached query, returns the concatenation
of the processed pages in page order, preserving within-page order; when
that concatenation is nonempty it is upserted under the key, and when it
is empty the cache store is left unchanged. -/
theorem C3_pagination_concat (remote : Remote) (notionID : String)
    (pages : List QueryPage) (fuel : Nat) (st : ServiceState)
    (h : servesFrom remote notionID "" pages = true)
    (hfuel : pages.length ≤ fuel) :
    QueryDatabase remote fuel st notionID true =
      some (some (pagesItems pages),
        if 0 < (pagesItems pages).length then
          { st with databaseMap := st.databaseMap.insert notionID (pagesItems pages) }
        else st) := by
  unfold QueryDatabase
  rw [queryLoop_serves remote notionID pages "" [] fuel h hfuel]
  by_cases hl : 0 < (pagesItems pages).length
  · simp [hl]
  · simp [hl]

theorem C3_pagination_concat_witness :
    servesFrom
      (fun _ c => if c = "" then some ⟨[⟨"a-1", 1, []⟩], "c1"⟩
        else if c = "c1" then some ⟨[⟨"c-3", 3, []⟩], ""⟩ else none)
      "db" "" [⟨[⟨"a-1", 1, []⟩], "c1"⟩, ⟨[⟨"c-3", 3, []⟩], ""⟩] = true ∧
    ([⟨[⟨"a-1", 1, []⟩], "c1"⟩, ⟨[⟨"c-3", 3, []⟩], ""⟩] : List QueryPage).length ≤ 2 ∧
    QueryDatabase
      (fun _ c => if c = "" then some ⟨[⟨"a-1", 1, []⟩], "c1"⟩
        else if c = "c1" then some ⟨[⟨"c-3", 3, []⟩], ""⟩ else none)
      2 (NewDataService []) "db" true =
      some (some (pagesItems [⟨[⟨"a-1", 1, []⟩], "c1"⟩, ⟨[⟨"c-3", 3, []⟩], ""⟩]),
        if 0 < (pagesItems [⟨[⟨"a-1", 1, []⟩], "c1"⟩, ⟨[⟨"c-3", 3, []⟩], ""⟩]).length then
          (⟨SMap.insert (NewDataService []).databaseMap "db"
              (pagesItems [⟨[⟨"a-1", 1, []⟩], "c1"⟩, ⟨[⟨"c-3", 3, []⟩], ""⟩]), [], []⟩ : ServiceState)
        else NewDataService []) :=
  ⟨by decide, by decide,
    C3_pagination_concat _ "db" [⟨[⟨"a-1", 1, []⟩], "c1"⟩, ⟨[⟨"c-3", 3, []⟩], ""⟩]
      2 (NewDataService []) (by decide) (by decide)⟩

/-- C2: when id is absent from the cache and the ignore list holds an
entry for its normalized form with failure time t, and the normalized id
is not a configured known database, then as long as the suppression
window has not elapsed QueryDatabaseCached fails with the distinct
ignored outcome, leaves the state unchanged and performs no remote fetch
(the remote oracle is arbitrary and unused); once the window has elapsed
the call proceeds to the on-demand fetch step. -/
theorem C2_ignore_suppression (st : ServiceState) (notionID : String)
    (t : Nat) (remote : Remote) (fuel : Nat)
    (hc : st.databaseMap.lookup notionID = none)
    (hk : st.knownDatabases.any
      (fun knownID => normalizedNotionID knownID == normalizedNotionID notionID) = false)
    (hi : st.ignoredDatabases.lookup (normalizedNotionID notionID) = some t) :
    (∀ now : Nat, now < t + IgnoreDatabaseDuration →
      QueryDatabaseCached remote fuel now st notionID =
        some (QueryResult.errIgnored, st)) ∧
    (∀ now : Nat, t + IgnoreDatabaseDuration ≤ now →
      QueryDatabaseCached remote fuel now st notionID =
        queryCachedFetch remote fuel now st notionID) := by
  constructor
  · intro now hnow
    have hig : IsDatabaseIgnored st now notionID = true := by
      unfold IsDatabaseIgnored
      rw [hi]
      exact decide_eq_true hnow
    unfold QueryDatabaseCached
    rw [hc, hig]
    simp
  · intro now hnow
    have hig : IsDatabaseIgnored st now notionID = false := by
      unfold IsDatabaseIgnored
      rw [hi]
      exact decide_eq_false (Nat.not_lt.mpr hnow)
    unfold QueryDatabaseCached
    rw [hc, hig]
    simp

theorem C2_ignore_suppression_witness :
    SMap.lookup (⟨[], [("abc", 100)], ["other"]⟩ : ServiceState).databaseMap "a-bc" = none ∧
    (⟨[], [("abc", 100)], ["other"]⟩ : ServiceState).knownDatabases.any
      (fun knownID => normalizedNotionID knownID == normalizedNotionID "a-bc") = false ∧
    SMap.lookup (⟨[], [("abc", 100)], ["other"]⟩ : ServiceState).ignoredDatabases
      (normalizedNotionID "a-bc") = some 100 ∧
    (150 : Nat) < 100 + IgnoreDatabaseDuration ∧
    QueryDatabaseCached (fun _ _ => none) 1 150 ⟨[], [("abc", 100)], ["other"]⟩ "a-bc" =
      some (QueryResult.errIgnored, ⟨[], [("abc", 100)], ["other"]⟩) ∧
    100 + IgnoreDatabaseDuration ≤ (400 : Nat) ∧
    QueryDatabaseCached (fun _ _ => none) 1 400 ⟨[], [("abc", 100)], ["other"]⟩ "a-bc" =
      queryCachedFetch (fun _ _ => none) 1 400 ⟨[], [("abc", 100)], ["other"]⟩ "a-bc" :=
  ⟨by decide, by decide, by decide, by decide,
    (C2_ignore_suppression _ "a-bc" 100 (fun _ _ => none) 1
      (by decide) (by decide) (by decide)).1 150 (by decide),
    by decide,
    (C2_ignore_suppression _ "a-bc" 100 (fun _ _ => none) 1
      (by decide) (by decide) (by decide)).2 400 (by decide)⟩

/-- A query with updateMapIfSuccess set to false never changes the state. -/
theorem QueryDatabase_false_state (remote : Remote) (fuel : Nat) (st : ServiceState)
    (notionID : String) (r : Option (List DataItem)) (st1 : ServiceState)
    (h : QueryDatabase remote fuel st notionID false = some (r, st1)) : st1 = st := by
  unfold QueryDatabase at h
  cases hq : queryLoop remote notionID fuel "" [] with
  | none => rw [hq] at h; cases h
  | some o =>
    cases o with
    | none =>
      rw [hq] at h
      simp only [Option.some.injEq, Prod.mk.injEq] at h
      exact h.2.symm
    | some result =>
      rw [hq] at h
      simp at h
      exact h.2.symm

/-- If the refresh loop body finished, every enumerated fetch finished. -/
theorem updateLoop_finishes (remote : Remote) (fuel : Nat) (st : ServiceState)
    (dbs : List String) :
    ∀ (acc res : SMap (List DataItem)),
      updateLoop remote fuel st acc dbs = some res →
      ∀ k ∈ dbs, ∃ p, QueryDatabase remote fuel st k false = some p := by
  induction dbs with
  | nil => intro acc res _ k hk; simp at hk
  | cons databaseID rest ih =>
    intro acc res h k hk
    unfold updateLoop at h
    cases hq : QueryDatabase remote fuel st databaseID false with
    | none => rw [hq] at h; cases h
    | some p =>
      rw [hq] at h
      obtain ⟨r, stx⟩ := p
      rcases List.mem_cons.mp hk with rfl | hk2
      · exact ⟨(r, stx), hq⟩
      · cases r with
        | none => exact ih acc res h k hk2
        | some items => exact ih (acc.insert databaseID items) res h k hk2

/-- The lookup characterisation of the fresh map built by the refresh
loop body: an enumerated key holds exactly the value of its successful
fetch, an enumerated key whose fetch failed falls back to the
accumulator, and a key not enumerated falls back to the accumulator. -/
theorem updateLoop_lookup (remote : Remote) (fuel : Nat) (st : ServiceState)
    (dbs : List String) :
    ∀ (acc res : SMap (List DataItem)),
      updateLoop remote fuel st acc dbs = some res →
      ∀ k, res.lookup k =
        if k ∈ dbs then
          match QueryDatabase remote fuel st k false with
          | some (some items, _) => some items
          | some (none, _) => acc.lookup k
          | none => acc.lookup k
        else acc.lookup k := by
  induction dbs with
  | nil =>
    intro acc res h k
    unfold updateLoop at h
    simp only [Option.some.injEq] at h
    subst h
    simp
  | cons databaseID rest ih =>
    intro acc res h k
    unfold updateLoop at h
    cases hq : QueryDatabase remote fuel st databaseID false with
    | none => rw [hq] at h; cases h
    | some p =>
      rw [hq] at h
      obtain ⟨r, stx⟩ := p
      cases r with
      | none =>
        have hres := ih acc res h k
        rw [hres]
        by_cases hk : k = databaseID
        · subst hk
          by_cases hmem : k ∈ rest
          · simp [hmem, hq, List.mem_cons]
          · simp [hmem, hq, List.mem_cons]
        · simp [List.mem_cons, hk]
      | some items =>
        have hres := ih (acc.insert databaseID items) res h k
        rw [hres]
        by_cases hk : k = databaseID
        · subst hk
          by_cases hmem : k ∈ rest
          · simp [hmem, hq, List.mem_cons]
          · simp [hmem, hq, List.mem_cons, SMap.lookup_insert_self]
        · have hne : (databaseID : String) ≠ k := fun he => hk he.symm
          simp [List.mem_cons, hk, SMap.lookup_insert_ne _ _ _ _ hne]

/-- C4: a completed refresh cycle from any cache state ends with the cache
map holding, for each key of the starting map whose fetch finished with a
result, exactly that result; a key whose fetch failed is absent; no key
outside the starting key set appears; the whole map is installed by the
single final assignment of the cycle; and the ignore list and known
database list are completely unchanged, so a failing database is never
marked ignored by the refresh path. -/
theorem C4_refresh_cycle (remote : Remote) (fuel : Nat) (st st1 : ServiceState)
    (h : update remote fuel st = some st1) :
    (∀ k, st.databaseMap.lookup k = none → st1.databaseMap.lookup k = none) ∧
    (∀ k v, st.databaseMap.lookup k = some v →
      ∃ r, QueryDatabase remote fuel st k false = some (r, st) ∧
        st1.databaseMap.lookup k = r) ∧
    st1.ignoredDatabases = st.ignoredDatabases ∧
    st1.knownDatabases = st.knownDatabases := by
  unfold update at h
  by_cases hd : (ListDatabases st).isEmpty
  · rw [if_pos hd] at h
    simp only [Option.some.injEq] at h
    subst h
    have hmap : st.databaseMap = [] := by
      unfold ListDatabases SMap.keys at hd
      simpa using hd
    refine ⟨fun k hk => hk, fun k v hv => ?_, rfl, rfl⟩
    rw [hmap] at hv
    simp [SMap.lookup] at hv
  · rw [if_neg hd] at h
    cases hl : updateLoop remote fuel st [] (ListDatabases st) with
    | none => rw [hl] at h; cases h
    | some res =>
      rw [hl] at h
      simp only [Option.some.injEq] at h
      subst h
      refine ⟨fun k hk => ?_, fun k v hv => ?_, rfl, rfl⟩
      · have hmem : k ∉ ListDatabases st :=
          (SMap.lookup_eq_none_iff _ _).mp hk
        have hlk := updateLoop_lookup remote fuel st (ListDatabases st) [] res hl k
        rw [if_neg hmem] at hlk
        simpa [SMap.lookup] using hlk
      · have hmem : k ∈ ListDatabases st := by
          by_contra hno
          rw [(SMap.lookup_eq_none_iff st.databaseMap k).mpr hno] at hv
          cases hv
        obtain ⟨p, hp⟩ := updateLoop_finishes remote fuel st (ListDatabases st) [] res hl k hmem
        obtain ⟨r, stx⟩ := p
        have hstx : stx = st := QueryDatabase_false_state remote fuel st k r stx hp
        rw [hstx] at hp
        refine ⟨r, hp, ?_⟩
        have hlk := updateLoop_lookup remote fuel st (ListDatabases st) [] res hl k
        rw [if_pos hmem, hp] at hlk
        cases r with
        | none => simpa [SMap.lookup] using hlk
        | some items => simpa using hlk

theorem C4_refresh_cycle_witness :
    update (fun db _ => if db = "a" then some ⟨[⟨"p-1", 5, []⟩], ""⟩ else none) 1
      ⟨[("a", [⟨"i", [], 0⟩]), ("b", [⟨"j", [], 0⟩])], [("z", 5)], ["k"]⟩ =
      some ⟨[("a", [⟨"p1", [], 5⟩])], [("z", 5)], ["k"]⟩ ∧
    ((∀ k, SMap.lookup (⟨[("a", [⟨"i", [], 0⟩]), ("b", [⟨"j", [], 0⟩])], [("z", 5)],
          ["k"]⟩ : ServiceState).databaseMap k = none →
        SMap.lookup (⟨[("a", [⟨"p1", [], 5⟩])], [("z", 5)],
          ["k"]⟩ : ServiceState).databaseMap k = none) ∧
      (∀ k v, SMap.lookup (⟨[("a", [⟨"i", [], 0⟩]), ("b", [⟨"j", [], 0⟩])], [("z", 5)],
          ["k"]⟩ : ServiceState).databaseMap k = some v →
        ∃ r, QueryDatabase (fun db _ => if db = "a" then some ⟨[⟨"p-1", 5, []⟩], ""⟩ else none) 1
            ⟨[("a", [⟨"i", [], 0⟩]), ("b", [⟨"j", [], 0⟩])], [("z", 5)], ["k"]⟩ k false =
            some (r, ⟨[("a", [⟨"i", [], 0⟩]), ("b", [⟨"j", [], 0⟩])], [("z", 5)], ["k"]⟩) ∧
          SMap.lookup (⟨[("a", [⟨"p1", [], 5⟩])], [("z", 5)],
            ["k"]⟩ : ServiceState).databaseMap k = r) ∧
      (⟨[("a", [⟨"p1", [], 5⟩])], [("z", 5)], ["k"]⟩ : ServiceState).ignoredDatabases =
        (⟨[("a", [⟨"i", [], 0⟩]), ("b", [⟨"j", [], 0⟩])], [("z", 5)],
          ["k"]⟩ : ServiceState).ignoredDatabases ∧
      (⟨[("a", [⟨"p1", [], 5⟩])], [("z", 5)], ["k"]⟩ : ServiceState).knownDatabases =
        (⟨[("a", [⟨"i", [], 0⟩]), ("b", [⟨"j", [], 0⟩])], [("z", 5)],
          ["k"]⟩ : ServiceState).knownDatabases) :=
  ⟨by decide,
    C4_refresh_cycle (fun db _ => if db = "a" then some ⟨[⟨"p-1", 5, []⟩], ""⟩ else none) 1
      ⟨[("a", [⟨"i", [], 0⟩]), ("b", [⟨"j", [], 0⟩])], [("z", 5)], ["k"]⟩
      ⟨[("a", [⟨"p1", [], 5⟩])], [("z", 5)], ["k"]⟩ (by decide)⟩

/-- A query never changes the ignore list or the known database list. -/
theorem QueryDatabase_components (remote : Remote) (fuel : Nat) (st : ServiceState)
    (notionID : String) (b : Bool) (r : Option (List DataItem)) (st1 : ServiceState)
    (h : QueryDatabase remote fuel st notionID b = some (r, st1)) :
    st1.ignoredDatabases = st.ignoredDatabases ∧ st1.knownDatabases = st.knownDatabases := by
  unfold QueryDatabase at h
  cases hq : queryLoop remote notionID fuel "" [] with
  | none => rw [hq] at h; cases h
  | some o =>
    cases o with
    | none =>
      rw [hq] at h
      simp at h
      rw [← h.2]
      exact ⟨rfl, rfl⟩
    | some result =>
      rw [hq] at h
      have h2 : (if b = true ∧ 0 < result.length then
          (some (some result, { st with databaseMap := st.databaseMap.insert notionID result })
            : Option (Option (List DataItem) × ServiceState))
          else some (some result, st)) = some (r, st1) := h
      by_cases hcl : b = true ∧ 0 < result.length
      · rw [if_pos hcl] at h2
        simp at h2
        rw [← h2.2]
        exact ⟨rfl, rfl⟩
      · rw [if_neg hcl] at h2
        simp at h2
        rw [← h2.2]
        exact ⟨rfl, rfl⟩

/-- A query that reports the error outcome leaves the state untouched. -/
theorem QueryDatabase_error_state (remote : Remote) (fuel : Nat) (st : ServiceState)
    (notionID : String) (b : Bool) (st2 : ServiceState)
    (h : QueryDatabase remote fuel st notionID b = some (none, st2)) : st2 = st := by
  unfold QueryDatabase at h
  cases hq : queryLoop remote notionID fuel "" [] with
  | none => rw [hq] at h; cases h
  | some o =>
    cases o with
    | none =>
      rw [hq] at h
      simp at h
      exact h.symm
    | some result =>
      rw [hq] at h
      have h2 : (if b = true ∧ 0 < result.length then
          (some (some result, { st with databaseMap := st.databaseMap.insert notionID result })
            : Option (Option (List DataItem) × ServiceState))
          else some (some result, st)) = some (none, st2) := h
      by_cases hcl : b = true ∧ 0 < result.length
      · rw [if_pos hcl] at h2
        simp at h2
      · rw [if_neg hcl] at h2
        simp at h2

/-- The state after a cached query either keeps the ignore list and known
list unchanged, or is exactly the starting state with the queried id
marked ignored. -/
theorem QueryDatabaseCached_state (remote : Remote) (fuel now : Nat) (st : ServiceState)
    (notionID : String) (r : QueryResult) (st1 : ServiceState)
    (h : QueryDatabaseCached remote fuel now st notionID = some (r, st1)) :
    (st1.ignoredDatabases = st.ignoredDatabases ∧ st1.knownDatabases = st.knownDatabases) ∨
      st1 = ignoreNotionDatabase st now notionID := by
  unfold QueryDatabaseCached at h
  cases hc : st.databaseMap.lookup notionID with
  | some val =>
    rw [hc] at h
    simp at h
    rw [← h.2]
    exact Or.inl ⟨rfl, rfl⟩
  | none =>
    rw [hc] at h
    by_cases hig : IsDatabaseIgnored st now notionID = true
    · rw [if_pos hig] at h
      simp at h
      rw [← h.2]
      exact Or.inl ⟨rfl, rfl⟩
    · rw [if_neg hig] at h
      unfold queryCachedFetch at h
      cases hq : QueryDatabase remote fuel st notionID true with
      | none => rw [hq] at h; cases h
      | some p =>
        obtain ⟨ro, st2⟩ := p
        rw [hq] at h
        cases ro with
        | none =>
          have hst2 : st2 = st := QueryDatabase_error_state remote fuel st notionID true st2 hq
          simp at h
          rw [← h.2, hst2]
          exact Or.inr rfl
        | some res =>
          simp at h
          rw [← h.2]
          exact Or.inl (QueryDatabase_components remote fuel st notionID true (some res) st2 hq)

/-- A refresh cycle never changes the ignore list or the known list. -/
theorem update_components (remote : Remote) (fuel : Nat) (st st1 : ServiceState)
    (h : update remote fuel st = some st1) :
    st1.ignoredDatabases = st.ignoredDatabases ∧ st1.knownDatabases = st.knownDatabases := by
  unfold update at h
  by_cases hd : (ListDatabases st).isEmpty
  · rw [if_pos hd] at h
    simp at h
    rw [← h]
    exact ⟨rfl, rfl⟩
  · rw [if_neg hd] at h
    cases hl : updateLoop remote fuel st [] (ListDatabases st) with
    | none => rw [hl] at h; cases h
    | some res =>
      rw [hl] at h
      simp at h
      rw [← h]
      exact ⟨rfl, rfl⟩

/-- Marking a database ignored never changes the known list. -/
theorem ignore_known (st : ServiceState) (now : Nat) (notionID : String) :
    (ignoreNotionDatabase st now notionID).knownDatabases = st.knownDatabases := by
  unfold ignoreNotionDatabase
  by_cases hk : st.knownDatabases.any
      (fun knownID => normalizedNotionID knownID == normalizedNotionID notionID) = true
  · simp [hk]
  · simp [hk]

/-- Marking a database ignored preserves the absence of known keys. -/
theorem noIgnoredKnown_ignore (st : ServiceState) (now : Nat) (notionID : String)
    (h : noIgnoredKnown st = true) :
    noIgnoredKnown (ignoreNotionDatabase st now notionID) = true := by
  unfold ignoreNotionDatabase
  by_cases hk : st.knownDatabases.any
      (fun knownID => normalizedNotionID knownID == normalizedNotionID notionID) = true
  · simp only [hk, if_true]
    exact h
  · simp only [hk, if_false, Bool.false_eq_true]
    unfold noIgnoredKnown at h ⊢
    apply SMap.all_insert _ _ _ _ h
    simp only [List.all_eq_true, bne_iff_ne, ne_eq]
    intro kd hkd heq
    apply hk
    rw [List.any_eq_true]
    exact ⟨kd, hkd, by simp [heq]⟩

/-- Marking a database ignored preserves the normal form of the keys. -/
theorem ignKeysNormalized_ignore (st : ServiceState) (now : Nat) (notionID : String)
    (h : ignKeysNormalized st = true) :
    ignKeysNormalized (ignoreNotionDatabase st now notionID) = true := by
  unfold ignoreNotionDatabase
  by_cases hk : st.knownDatabases.any
      (fun knownID => normalizedNotionID knownID == normalizedNotionID notionID) = true
  · simp only [hk, if_true]
    exact h
  · simp only [hk, if_false, Bool.false_eq_true]
    unfold ignKeysNormalized at h ⊢
    apply SMap.all_insert _ _ _ _ h
    simp only [Bool.and_eq_true, beq_iff_eq, List.all_eq_true, bne_iff_ne, ne_eq]
    refine ⟨normalizedNotionID_idem notionID, fun c hc => ?_⟩
    have := normalizedNotionID_no_space_hyphen notionID c hc
    simp [this.1, this.2]

/-- The sweep only removes entries, so an all-quantified key property of
the ignore list survives it. -/
theorem all_sweep (st : ServiceState) (now : Nat) (P : String × Nat → Bool)
    (h : st.ignoredDatabases.all P = true) :
    ((sweep now st).ignoredDatabases).all P = true := by
  unfold sweep
  simp only [List.all_eq_true] at h ⊢
  intro p hp
  exact h p (List.mem_of_mem_filter hp)

/-- Every observable transition preserves the absence of known keys in
the ignore list. -/
theorem Step_noIgnoredKnown {st st1 : ServiceState} (hs : Step st st1)
    (h : noIgnoredKnown st = true) : noIgnoredKnown st1 = true := by
  cases hs with
  | queryCached remote fuel now notionID sA sB r hq =>
    rcases QueryDatabaseCached_state remote fuel now st notionID r st1 hq with ⟨h1, h2⟩ | h3
    · unfold noIgnoredKnown at h ⊢
      rw [h1, h2]
      exact h
    · rw [h3]
      exact noIgnoredKnown_ignore st now notionID h
  | queryDatabase remote fuel notionID b sA sB r hq =>
    obtain ⟨h1, h2⟩ := QueryDatabase_components remote fuel st notionID b r st1 hq
    unfold noIgnoredKnown at h ⊢
    rw [h1, h2]
    exact h
  | updateTick remote fuel sA sB hq =>
    obtain ⟨h1, h2⟩ := update_components remote fuel st st1 hq
    unfold noIgnoredKnown at h ⊢
    rw [h1, h2]
    exact h
  | sweepTick now =>
    unfold noIgnoredKnown at h ⊢
    exact all_sweep st now _ h

/-- Every observable transition preserves the normal form of the ignore
list keys. -/
theorem Step_ignKeysNormalized {st st1 : ServiceState} (hs : Step st st1)
    (h : ignKeysNormalized st = true) : ignKeysNormalized st1 = true := by
  cases hs with
  | queryCached remote fuel now notionID sA sB r hq =>
    rcases QueryDatabaseCached_state remote fuel now st notionID r st1 hq with ⟨h1, _⟩ | h3
    · unfold ignKeysNormalized at h ⊢
      rw [h1]
      exact h
    · rw [h3]
      exact ignKeysNormalized_ignore st now notionID h
  | queryDatabase remote fuel notionID b sA sB r hq =>
    obtain ⟨h1, _⟩ := QueryDatabase_components remote fuel st notionID b r st1 hq
    unfold ignKeysNormalized at h ⊢
    rw [h1]
    exact h
  | updateTick remote fuel sA sB hq =>
    obtain ⟨h1, _⟩ := update_components remote fuel st st1 hq
    unfold ignKeysNormalized at h ⊢
    rw [h1]
    exact h
  | sweepTick now =>
    unfold ignKeysNormalized at h ⊢
    exact all_sweep st now _ h

/-- C5: marking ignored is a no-op whenever the normalized id matches the
normalized form of a configured known database, from every prior state
and hence after arbitrarily many repeated failures; consequently, in
every reachable state no ignore list key equals the normalized form of a
configured known database. -/
theorem C5_known_exemption :
    (∀ (st : ServiceState) (now : Nat) (notionID : String),
      st.knownDatabases.any
        (fun knownID => normalizedNotionID knownID == normalizedNotionID notionID) = true →
      ignoreNotionDatabase st now notionID = st) ∧
    (∀ (known : List String) (st : ServiceState),
      Reachable known st → noIgnoredKnown st = true) := by
  constructor
  · intro st now notionID h
    unfold ignoreNotionDatabase
    simp only [h, if_true]
  · intro known st h
    unfold Reachable at h
    induction h with
    | refl => rfl
    | tail hab hbc ih => exact Step_noIgnoredKnown hbc ih

theorem C5_known_exemption_witness :
    (⟨[], [("zzz", 7)], ["K-1"]⟩ : ServiceState).knownDatabases.any
      (fun knownID => normalizedNotionID knownID == normalizedNotionID "K 1") = true ∧
    ignoreNotionDatabase ⟨[], [("zzz", 7)], ["K-1"]⟩ 9 "K 1" = ⟨[], [("zzz", 7)], ["K-1"]⟩ ∧
    Reachable ["K-1"] (NewDataService ["K-1"]) ∧
    noIgnoredKnown (NewDataService ["K-1"]) = true :=
  ⟨by decide, C5_known_exemption.1 ⟨[], [("zzz", 7)], ["K-1"]⟩ 9 "K 1" (by decide),
    Relation.ReflTransGen.refl,
    C5_known_exemption.2 ["K-1"] (NewDataService ["K-1"]) Relation.ReflTransGen.refl⟩

/-- C10: in every reachable state every key of the ignore list is a fixed
point of normalization and contains neither a space nor a hyphen, because
the only insertion stores the normalized id and the sweep only deletes;
hence two byte-distinct spellings of one database can never produce two
distinct ignore entries. -/
theorem C10_ignored_keys_normalized (known : List String) (st : ServiceState)
    (h : Reachable known st) : ignKeysNormalized st = true := by
  unfold Reachable at h
  induction h with
  | refl => rfl
  | tail hab hbc ih => exact Step_ignKeysNormalized hbc ih

theorem C10_ignored_keys_normalized_witness :
    Reachable [] ⟨[], [("ab", 0)], []⟩ ∧
    ignKeysNormalized ⟨[], [("ab", 0)], []⟩ = true :=
  have hstep : Step (NewDataService []) ⟨[], [("ab", 0)], []⟩ :=
    Step.queryCached (fun _ _ => none) 1 0 "a-b" (NewDataService []) ⟨[], [("ab", 0)], []⟩
      QueryResult.errFetch (by decide)
  ⟨Relation.ReflTransGen.single hstep,
    C10_ignored_keys_normalized [] ⟨[], [("ab", 0)], []⟩ (Relation.ReflTransGen.single hstep)⟩

/-- C9: the claim asserts that the record normalizer is deterministic with
a property ordering that preserves the remote record ordering; but the
source iterates the page property map, a Go map whose iteration order is
unspecified and varies between runs, so two runs over the identical
property map may visit the entries in different orders and then produce
record values whose property lists differ in order: here the same
two-entry property map, presented in its two possible iteration orders,
yields two different outputs of processPageProperties. -/
theorem C9_map_iteration_order :
    List.Perm [("A", NotionProperty.select "x"), ("B", NotionProperty.select "y")]
      [("B", NotionProperty.select "y"), ("A", NotionProperty.select "x")] ∧
    processPageProperties [⟨"p", 0, [("A", NotionProperty.select "x"),
        ("B", NotionProperty.select "y")]⟩] ≠
      processPageProperties [⟨"p", 0, [("B", NotionProperty.select "y"),
        ("A", NotionProperty.select "x")]⟩] :=
  ⟨by decide, by decide⟩
